import Mathlib

/-!
Shallow embedding of the music-player repository (backend/models and
backend/patterns) and proofs about its claims.

The doubly linked list of `backend/models/doubly_linked_list.py` is embedded
as the list of node data in head-to-tail order together with the index of the
node the `current` pointer designates (`none` when `self.current is None`).
A node pointer is identified by its position, so an operation that leaves the
Python `current` pointer on the same node updates the stored index by however
much that node shifted.  Python exceptions (`IndexError`, `ValueError`) are
embedded as `Except PyErr`; raising before any mutation corresponds to
returning `Except.error` with no new state.
-/

deriving instance DecidableEq for Except

/-- Python exception kinds raised by the list layer: `IndexError` (empty
collection) and `ValueError` (invalid position / argument). -/
inductive PyErr where
  | indexError : PyErr
  | valueError : PyErr
deriving DecidableEq, Repr

/-- Embeds `DoublyLinkedList.__init__` state: node data head-to-tail plus the index
of the `current` node (`none` = no current node).  `_size` is kept equal to
`items.length` by every operation of the source, so it is represented by
`items.length` itself. -/
structure DoublyLinkedList (α : Type) where
  items : List α
  cur : Option Nat
deriving DecidableEq, Repr

/-- Embeds `DoublyLinkedList()` — empty list, no current node. -/
def DoublyLinkedList.empty {α : Type} : DoublyLinkedList α := ⟨[], none⟩

/-- Embeds `is_empty`: `self.head is None`. -/
def DoublyLinkedList.is_empty {α : Type} (d : DoublyLinkedList α) : Bool :=
  d.items.isEmpty

/-- Embeds `size`: returns `self._size`. -/
def DoublyLinkedList.size {α : Type} (d : DoublyLinkedList α) : Nat :=
  d.items.length

/-- Embeds `insert_at_beginning`: prepend; on an empty list the new node becomes
`current`.  On a non-empty list the `current` pointer is untouched, so its
index grows by one. -/
def DoublyLinkedList.insert_at_beginning {α : Type} (d : DoublyLinkedList α)
    (data : α) : DoublyLinkedList α :=
  if d.items.isEmpty then ⟨[data], some 0⟩
  else ⟨data :: d.items, d.cur.map (fun i => i + 1)⟩

/-- Embeds `insert_at_end`: append; on an empty list the new node becomes `current`.
On a non-empty list the `current` pointer is untouched and no index shifts. -/
def DoublyLinkedList.insert_at_end {α : Type} (d : DoublyLinkedList α)
    (data : α) : DoublyLinkedList α :=
  if d.items.isEmpty then ⟨[data], some 0⟩
  else ⟨d.items ++ [data], d.cur⟩

/-- Embeds `insert_at_position`: `ValueError` outside `[0, size]`; position `0`
delegates to `insert_at_beginning`, position `size` to `insert_at_end`,
otherwise the new node is linked in before the node at `position` (indices
`≥ position` shift by one; the `current` pointer is untouched). -/
def DoublyLinkedList.insert_at_position {α : Type} (d : DoublyLinkedList α)
    (data : α) (position : Int) : Except PyErr (DoublyLinkedList α) :=
  if position < 0 ∨ (d.items.length : Int) < position then
    .error .valueError
  else if position = 0 then
    .ok (d.insert_at_beginning data)
  else if position = (d.items.length : Int) then
    .ok (d.insert_at_end data)
  else
    let p := position.toNat
    .ok ⟨d.items.take p ++ data :: d.items.drop p,
         d.cur.map (fun i => if i < p then i else i + 1)⟩

/-- Embeds `_delete_node`, restricted to its effect on the `current` index when the
node at index `p` of a list of length `len` is removed: if the deleted node
is current, current moves to `node.next` (which lands at index `p`), else to
`node.prev` (index `p - 1`), else becomes `None`; a surviving current node
keeps its identity, so its index drops by one exactly when it was to the
right of `p`. -/
def DoublyLinkedList.delete_cur_update (cur : Option Nat) (p len : Nat) :
    Option Nat :=
  match cur with
  | none => none
  | some i =>
    if i = p then
      if p + 1 < len then some p
      else if 0 < p then some (p - 1)
      else none
    else if i < p then some i
    else some (i - 1)

/-- Embeds `delete_at_position`: `IndexError` on an empty list, `ValueError` outside
`[0, size-1]`; otherwise unlinks the node at `position` (its data is
returned) and updates `current` per `_delete_node`. -/
def DoublyLinkedList.delete_at_position {α : Type} (d : DoublyLinkedList α)
    (position : Int) : Except PyErr (α × DoublyLinkedList α) :=
  if d.items.isEmpty then .error .indexError
  else if h : position < 0 ∨ (d.items.length : Int) ≤ position then
    .error .valueError
  else
    have hp : position.toNat < d.items.length := by push_neg at h; omega
    .ok (d.items[position.toNat],
         ⟨d.items.take position.toNat ++ d.items.drop (position.toNat + 1),
          DoublyLinkedList.delete_cur_update d.cur position.toNat
            d.items.length⟩)

/-- Embeds `get_current`: `self.current.data if self.current else None`. -/
def DoublyLinkedList.get_current {α : Type} (d : DoublyLinkedList α) :
    Option α :=
  d.cur.bind (fun i => d.items[i]?)

/-- Embeds `get_current_position`: `-1` when there is no current node, otherwise the
number of steps from `head` to the current node, i.e. its index. -/
def DoublyLinkedList.get_current_position {α : Type} (d : DoublyLinkedList α) :
    Int :=
  match d.cur with
  | none => -1
  | some i => (i : Int)

/-- Embeds `next`: if there is a current node with a `next` neighbour, advance to it
and return its data; otherwise return `None` and leave the list untouched. -/
def DoublyLinkedList.next {α : Type} (d : DoublyLinkedList α) :
    Option α × DoublyLinkedList α :=
  match d.cur with
  | none => (none, d)
  | some i =>
    if h : i + 1 < d.items.length then
      (some (d.items[i + 1]), ⟨d.items, some (i + 1)⟩)
    else (none, d)

/-- Embeds `previous`: if there is a current node with a `prev` neighbour, move to it
and return its data; otherwise return `None` and leave the list untouched. -/
def DoublyLinkedList.previous {α : Type} (d : DoublyLinkedList α) :
    Option α × DoublyLinkedList α :=
  match d.cur with
  | none => (none, d)
  | some i =>
    if h : 0 < i ∧ i - 1 < d.items.length then
      (some (d.items[i - 1]), ⟨d.items, some (i - 1)⟩)
    else (none, d)

/-- Embeds `set_current`: `IndexError` on an empty list, `ValueError` outside
`[0, size-1]`; otherwise repoints `current` at the node at `position` and
returns its data. -/
def DoublyLinkedList.set_current {α : Type} (d : DoublyLinkedList α)
    (position : Int) : Except PyErr (α × DoublyLinkedList α) :=
  if d.items.isEmpty then .error .indexError
  else if h : position < 0 ∨ (d.items.length : Int) ≤ position then
    .error .valueError
  else
    have hp : position.toNat < d.items.length := by push_neg at h; omega
    .ok (d.items[position.toNat], ⟨d.items, some position.toNat⟩)

/-- Embeds `has_next`: current node exists and has a `next` neighbour. -/
def DoublyLinkedList.has_next {α : Type} (d : DoublyLinkedList α) : Bool :=
  match d.cur with
  | none => false
  | some i => i + 1 < d.items.length

/-- Embeds `has_previous`: current node exists and has a `prev` neighbour. -/
def DoublyLinkedList.has_previous {α : Type} (d : DoublyLinkedList α) : Bool :=
  match d.cur with
  | none => false
  | some i => 0 < i

/-- Embeds `to_list`: node data from head to tail. -/
def DoublyLinkedList.to_list {α : Type} (d : DoublyLinkedList α) : List α :=
  d.items

/-- Embeds `move_to_position`: `IndexError` on an empty list, `ValueError` when
either position is outside `[0, size-1]`, no-op when equal; otherwise deletes
at `from_pos`, decrements `to_pos` when `to_pos > from_pos`, and re-inserts
the data at the adjusted position. -/
def DoublyLinkedList.move_to_position {α : Type} (d : DoublyLinkedList α)
    (from_pos to_pos : Int) : Except PyErr (DoublyLinkedList α) :=
  if d.items.isEmpty then .error .indexError
  else if from_pos < 0 ∨ (d.items.length : Int) ≤ from_pos ∨
      to_pos < 0 ∨ (d.items.length : Int) ≤ to_pos then
    .error .valueError
  else if from_pos = to_pos then .ok d
  else do
    let r ← d.delete_at_position from_pos
    let to2 := if from_pos < to_pos then to_pos - 1 else to_pos
    r.2.insert_at_position r.1 to2

/-- Embeds `find` on data equality, returning the index of the first matching node
(`None` when absent); used by `shuffle` to restore the current pointer. -/
def DoublyLinkedList.find_index {α : Type} [BEq α] (d : DoublyLinkedList α)
    (data : α) : Option Nat :=
  d.items.findIdx? (fun x => x == data)

/-- Embeds `shuffle`, with the result of `random.shuffle(self.to_list())` passed in
as `shuffled`: lists of size `≤ 1` are untouched; otherwise the list is
cleared and rebuilt by `insert_at_end` (making the first rebuilt node
current), then `current` is repointed at the first node whose data equals the
old current data, when such a node exists. -/
def DoublyLinkedList.shuffle {α : Type} [BEq α] (d : DoublyLinkedList α)
    (shuffled : List α) : DoublyLinkedList α :=
  if d.items.length ≤ 1 then d
  else
    let current_data := d.get_current
    let rebuilt : DoublyLinkedList α :=
      shuffled.foldl (fun acc x => acc.insert_at_end x) DoublyLinkedList.empty
    match current_data with
    | none => rebuilt
    | some cd =>
      match rebuilt.find_index cd with
      | some j => ⟨rebuilt.items, some j⟩
      | none => rebuilt

/-!
Embedding of `backend/models/song.py` — only the fields the playlist layer reads are
carried: `id` (equality of songs is by `id`, per `Song.__eq__`) and
`duration` (summed by `Playlist.update_totals`).  `title` stands for the
remaining metadata.  Durations are embedded as rationals; the claims checked
here only copy and add them.
-/

/-- Embeds `Song` (pydantic model), restricted to the fields the playlist layer
uses. -/
structure Song where
  id : String
  title : String
  duration : Rat
deriving DecidableEq, Repr

/-- Embeds `Song.__eq__`: songs compare equal exactly when their ids do. -/
instance : BEq Song := ⟨fun a b => a.id == b.id⟩

/-!
Embedding of `backend/models/playlist.py` — a `Playlist` wraps a `DoublyLinkedList` of
songs with a separately maintained integer `current_position`, plus cached
`song_count` and `total_duration`.  Identity/metadata fields (`id`, `name`,
`description`, `cover_image`, `created_at`) do not influence any claim and
are represented by `name` alone.  Every `try/except` of the source is
embedded by returning `(false, state-so-far)` where the Python handler would
return `False` on a caught exception.
-/

/-- Embeds `Playlist.__init__` state (song store, `current_position`,
`total_duration`, `song_count`, and the name standing in for the metadata
fields). -/
structure Playlist where
  name : String
  songs : DoublyLinkedList Song
  current_position : Int
  total_duration : Rat
  song_count : Nat
deriving DecidableEq, Repr

/-- A fresh playlist: empty song list, `current_position = 0`, zero totals. -/
def Playlist.init (name : String) : Playlist :=
  ⟨name, DoublyLinkedList.empty, 0, 0, 0⟩

/-- Embeds `update_totals`: recompute `song_count` and `total_duration` from the
song list. -/
def Playlist.update_totals (p : Playlist) : Playlist :=
  { p with
    song_count := p.songs.size,
    total_duration := (p.songs.to_list.map Song.duration).sum }

/-- Embeds `is_empty`: delegates to the songs list. -/
def Playlist.is_empty (p : Playlist) : Bool :=
  p.songs.is_empty

/-- Embeds `Playlist.__bool__`: a playlist is truthy exactly when it has songs. -/
def Playlist.toBool (p : Playlist) : Bool :=
  !p.is_empty

/-- Tail of `add_song` after a successful insert: `update_totals`, then if the
list now has exactly one song, make it current (position `0`).  The
`set_current(0)` call sits inside the `try`, so a failure there would be
caught and reported as `False` with the partial mutation kept; on a one-song
list it always succeeds. -/
def Playlist.add_song_finish (p1 : Playlist) : Bool × Playlist :=
  let p2 := p1.update_totals
  if p2.songs.size = 1 then
    match p2.songs.set_current 0 with
    | .ok r => (true, { p2 with current_position := 0, songs := r.2 })
    | .error _ => (false, { p2 with current_position := 0 })
  else (true, p2)

/-- Embeds `add_song`: append when `position` is `None`, otherwise bounds-check
`[0, size]` (a violation raises inside the `try` and is caught, yielding
`False` with the playlist untouched) and insert at `position`. -/
def Playlist.add_song (p : Playlist) (song : Song) (position : Option Int) :
    Bool × Playlist :=
  match position with
  | none => Playlist.add_song_finish { p with songs := p.songs.insert_at_end song }
  | some pos =>
    if pos < 0 ∨ (p.songs.size : Int) < pos then (false, p)
    else
      match p.songs.insert_at_position song pos with
      | .error _ => (false, p)
      | .ok s1 => Playlist.add_song_finish { p with songs := s1 }

/-- Embeds `remove_song`: scan for the first song whose `id` matches; when found,
pre-adjust `current_position` (decrement when the removal is before it; clamp
to `max 0 (size - 2)` when removing the current last song), delete, recompute
totals, then re-point the list's current node at `current_position` when the
list is non-empty and the position is below the new size, else reset
`current_position` to `0`.  `False` when the id is falsy or not found. -/
def Playlist.remove_song (p : Playlist) (song_id : String) : Bool × Playlist :=
  if song_id = "" then (false, p)
  else
    match p.songs.items.findIdx? (fun s => s.id == song_id) with
    | none => (false, p)
    | some position =>
      let cp := p.current_position
      let cp1 : Int :=
        if (position : Int) < cp then cp - 1
        else if (position : Int) = cp ∧ (p.songs.size : Int) - 1 ≤ cp then
          max 0 ((p.songs.size : Int) - 2)
        else cp
      match p.songs.delete_at_position (position : Int) with
      | .error _ => (false, { p with current_position := cp1 })
      | .ok r =>
        let p1 := ({ p with songs := r.2, current_position := cp1 }).update_totals
        if ¬p1.songs.items.isEmpty ∧ cp1 < (p1.songs.size : Int) then
          match p1.songs.set_current cp1 with
          | .ok r2 => (true, { p1 with songs := r2.2 })
          | .error _ => (false, p1)
        else (true, { p1 with current_position := 0 })

/-- Embeds `get_current_song`: `None` on an empty playlist, otherwise the data under
the list's current pointer. -/
def Playlist.get_current_song (p : Playlist) : Option Song :=
  if p.songs.is_empty then none else p.songs.get_current

/-- Embeds `next_song`: `None` on an empty playlist; otherwise advance the list and
increment `current_position` exactly when the list reported a song. -/
def Playlist.next_song (p : Playlist) : Option Song × Playlist :=
  if p.songs.is_empty then (none, p)
  else
    let r := p.songs.next
    match r.1 with
    | some s => (some s, { p with songs := r.2, current_position := p.current_position + 1 })
    | none => (none, { p with songs := r.2 })

/-- Embeds `previous_song`: `None` on an empty playlist; otherwise retreat the list
and decrement `current_position` exactly when the list reported a song. -/
def Playlist.previous_song (p : Playlist) : Option Song × Playlist :=
  if p.songs.is_empty then (none, p)
  else
    let r := p.songs.previous
    match r.1 with
    | some s => (some s, { p with songs := r.2, current_position := p.current_position - 1 })
    | none => (none, { p with songs := r.2 })

/-- Embeds `set_current_position`: `False` on an empty playlist or a position
outside `[0, size-1]`; otherwise point the list's current node there and
record the position. -/
def Playlist.set_current_position (p : Playlist) (position : Int) :
    Bool × Playlist :=
  if p.songs.is_empty then (false, p)
  else if position < 0 ∨ (p.songs.size : Int) ≤ position then (false, p)
  else
    match p.songs.set_current position with
    | .ok r => (true, { p with songs := r.2, current_position := position })
    | .error _ => (false, p)

/-- Embeds `_find_song_position`: index of the first song with the given id, `0`
when absent. -/
def Playlist.find_song_position (p : Playlist) (song_id : String) : Nat :=
  (p.songs.items.findIdx? (fun s => s.id == song_id)).getD 0

/-- Embeds `shuffle_songs`, with the shuffled order passed in: playlists of at most
one song are untouched; otherwise shuffle the list and re-derive
`current_position` from the current song's id. -/
def Playlist.shuffle_songs (p : Playlist) (shuffled : List Song) : Playlist :=
  if p.songs.size ≤ 1 then p
  else
    let current_song := p.get_current_song
    let p1 := { p with songs := p.songs.shuffle shuffled }
    match current_song with
    | some s => { p1 with current_position := (p1.find_song_position s.id : Int) }
    | none => p1

/-- Embeds `get_songs_list`: the songs in order. -/
def Playlist.get_songs_list (p : Playlist) : List Song :=
  p.songs.to_list

/-- Embeds `move_song`: `False` on an empty playlist or positions outside
`[0, size-1]` (checked before any mutation); otherwise pre-adjust
`current_position` (a moved current song is expected at `to_position`; a song
moved across it shifts it by one), perform the list-level move, and re-point
the list's current node at the adjusted `current_position`.  The last step
sits inside the `try`: were it to fail, the handler would return `False`
keeping the mutations made so far. -/
def Playlist.move_song (p : Playlist) (from_position to_position : Int) :
    Bool × Playlist :=
  if p.songs.is_empty then (false, p)
  else if from_position < 0 ∨ (p.songs.size : Int) ≤ from_position ∨
      to_position < 0 ∨ (p.songs.size : Int) ≤ to_position then (false, p)
  else
    let cp := p.current_position
    let cp1 : Int :=
      if from_position = cp then to_position
      else if from_position < cp ∧ cp ≤ to_position then cp - 1
      else if to_position ≤ cp ∧ cp < from_position then cp + 1
      else cp
    match p.songs.move_to_position from_position to_position with
    | .error _ => (false, { p with current_position := cp1 })
    | .ok s1 =>
      let p1 := { p with songs := s1, current_position := cp1 }
      if ¬p1.songs.items.isEmpty then
        match p1.songs.set_current cp1 with
        | .ok r2 => (true, { p1 with songs := r2.2 })
        | .error _ => (false, p1)
      else (true, p1)

/-!
Embedding of `backend/patterns/singleton.py` — the `MusicPlayerManager` state and its
operations.  The singleton machinery (`__new__` / `_initialized`) only
ensures a single instance and is not modelled; the state is the instance's
attributes.  `_volume_before_mute` is created dynamically by the first
`mute()` and tested with `hasattr` in `unmute()`, so it is embedded as an
`Option`.  Volumes and positions in seconds are embedded as rationals: the
operations only store, compare and restore them.
-/

/-- The repeat mode strings `"off"`, `"one"`, `"all"`. -/
inductive RepeatMode where
  | off : RepeatMode
  | one : RepeatMode
  | all : RepeatMode
deriving DecidableEq, Repr

/-- Embeds `MusicPlayerManager` instance attributes. -/
structure MusicPlayerManager where
  current_playlist : Option Playlist
  is_playing : Bool
  is_paused : Bool
  current_volume : Rat
  repeat_mode : RepeatMode
  shuffle_mode : Bool
  current_position_seconds : Rat
  volume_before_mute : Option Rat
deriving DecidableEq, Repr

/-- Embeds `MusicPlayerManager.__init__`: no playlist, stopped, volume `70.0`,
repeat `"off"`, shuffle off, position `0.0`; `_volume_before_mute` does not
exist yet. -/
def MusicPlayerManager.init : MusicPlayerManager :=
  ⟨none, false, false, 70, .off, false, 0, none⟩

/-- Truthiness of `self.current_playlist`: `None` is falsy and a `Playlist`
delegates to `Playlist.__bool__`, i.e. non-emptiness. -/
def MusicPlayerManager.playlist_truthy (m : MusicPlayerManager) : Bool :=
  match m.current_playlist with
  | none => false
  | some pl => pl.toBool

/-- Embeds `set_current_playlist`: install the playlist, reset the position in
seconds, and reset the playback state to stopped. -/
def MusicPlayerManager.set_current_playlist (m : MusicPlayerManager)
    (pl : Playlist) : MusicPlayerManager :=
  { m with
    current_playlist := some pl,
    current_position_seconds := 0,
    is_playing := false,
    is_paused := false }

/-- Embeds `set_playing_state`: store the flag; when playing, clear `is_paused`;
when not playing, set `is_paused` only if the current playlist is truthy and
non-empty (pausable music exists), else leave it. -/
def MusicPlayerManager.set_playing_state (m : MusicPlayerManager)
    (playing : Bool) : MusicPlayerManager :=
  let m1 := { m with is_playing := playing }
  if playing then { m1 with is_paused := false }
  else
    match m1.current_playlist with
    | some pl => if pl.songs.is_empty then m1 else { m1 with is_paused := true }
    | none => m1

/-- Embeds `set_volume`: `ValueError` outside `[0.0, 100.0]`, otherwise store. -/
def MusicPlayerManager.set_volume (m : MusicPlayerManager) (volume : Rat) :
    Except PyErr MusicPlayerManager :=
  if ¬(0 ≤ volume ∧ volume ≤ 100) then .error .valueError
  else .ok { m with current_volume := volume }

/-- Embeds `toggle_repeat_mode`: cycle `"off" → "one" → "all" → "off"` and return
the new mode. -/
def MusicPlayerManager.toggle_repeat_mode (m : MusicPlayerManager) :
    RepeatMode × MusicPlayerManager :=
  let r := match m.repeat_mode with
    | .off => RepeatMode.one
    | .one => RepeatMode.all
    | .all => RepeatMode.off
  (r, { m with repeat_mode := r })

/-- Embeds `toggle_shuffle_mode`, with the shuffled order passed in: flip the flag;
when it turned on and a truthy non-empty playlist is present, shuffle it.
Returns the new flag. -/
def MusicPlayerManager.toggle_shuffle_mode (m : MusicPlayerManager)
    (shuffled : List Song) : Bool × MusicPlayerManager :=
  let m1 := { m with shuffle_mode := !m.shuffle_mode }
  match m1.current_playlist with
  | some pl =>
    if m1.shuffle_mode ∧ ¬pl.songs.is_empty then
      (m1.shuffle_mode,
       { m1 with current_playlist := some (pl.shuffle_songs shuffled) })
    else (m1.shuffle_mode, m1)
  | none => (m1.shuffle_mode, m1)

/-- Embeds `reset_state`: back to the initial attribute values.  The dynamically
added `_volume_before_mute` attribute is not deleted. -/
def MusicPlayerManager.reset_state (m : MusicPlayerManager) :
    MusicPlayerManager :=
  { m with
    current_playlist := none,
    is_playing := false,
    is_paused := false,
    current_volume := 70,
    repeat_mode := .off,
    shuffle_mode := false,
    current_position_seconds := 0 }

/-- Embeds `is_muted`: the readable volume is `0.0`. -/
def MusicPlayerManager.is_muted (m : MusicPlayerManager) : Bool :=
  m.current_volume = 0

/-- Embeds `mute`: remember the current volume in `_volume_before_mute`, then set
the volume to `0.0`. -/
def MusicPlayerManager.mute (m : MusicPlayerManager) : MusicPlayerManager :=
  { m with
    volume_before_mute := some m.current_volume,
    current_volume := 0 }

/-- Embeds `unmute`: restore `_volume_before_mute` when that attribute exists,
else the default `70.0`. -/
def MusicPlayerManager.unmute (m : MusicPlayerManager) : MusicPlayerManager :=
  match m.volume_before_mute with
  | some v => { m with current_volume := v }
  | none => { m with current_volume := 70 }

/-- Embeds `next_song`: `False` when the current playlist is falsy (absent or
empty).  Repeat `"one"` only resets the position in seconds and succeeds.
Otherwise try the playlist's `next_song`; on success reset the position in
seconds.  At the end with repeat `"all"` and a positive cached `song_count`,
jump to position `0` and succeed.  Else mark the player stopped and fail. -/
def MusicPlayerManager.next_song (m : MusicPlayerManager) :
    Bool × MusicPlayerManager :=
  match m.current_playlist with
  | none => (false, m)
  | some pl =>
    if pl.songs.is_empty then (false, m)
    else if m.repeat_mode = .one then
      (true, { m with current_position_seconds := 0 })
    else
      let r := pl.next_song
      match r.1 with
      | some _ =>
        (true, { m with current_playlist := some r.2, current_position_seconds := 0 })
      | none =>
        if m.repeat_mode = .all ∧ 0 < r.2.song_count then
          let r2 := r.2.set_current_position 0
          (true, { m with current_playlist := some r2.2, current_position_seconds := 0 })
        else
          (false, { m with current_playlist := some r.2,
                           is_playing := false, is_paused := false })

/-- Embeds `previous_song`: `False` when the current playlist is falsy.  Repeat
`"one"` only resets the position in seconds and succeeds.  Otherwise try the
playlist's `previous_song`; on success reset the position in seconds.  At the
beginning with repeat `"all"` and a positive cached `song_count`, jump to the
last position and succeed.  Else fail (without touching the flags). -/
def MusicPlayerManager.previous_song (m : MusicPlayerManager) :
    Bool × MusicPlayerManager :=
  match m.current_playlist with
  | none => (false, m)
  | some pl =>
    if pl.songs.is_empty then (false, m)
    else if m.repeat_mode = .one then
      (true, { m with current_position_seconds := 0 })
    else
      let r := pl.previous_song
      match r.1 with
      | some _ =>
        (true, { m with current_playlist := some r.2, current_position_seconds := 0 })
      | none =>
        if m.repeat_mode = .all ∧ 0 < r.2.song_count then
          let r2 := r.2.set_current_position ((r.2.song_count : Int) - 1)
          (true, { m with current_playlist := some r2.2, current_position_seconds := 0 })
        else
          (false, { m with current_playlist := some r.2 })

/-- The player status shown by `__str__`: `Playing` when `is_playing`, else
`Paused` when `is_paused`, else `Stopped`. -/
inductive PlayerStatus where
  | playing : PlayerStatus
  | paused : PlayerStatus
  | stopped : PlayerStatus
deriving DecidableEq, Repr

/-- Status classification of `MusicPlayerManager.__str__`. -/
def MusicPlayerManager.status (m : MusicPlayerManager) : PlayerStatus :=
  if m.is_playing then .playing
  else if m.is_paused then .paused
  else .stopped

/-- The session states reachable from the initial `MusicPlayerManager` state
through the public operations.  `set_volume` contributes a state only when it
succeeds (an invalid volume raises without mutating), and the list handed to
a shuffle is constrained to be a permutation of the playlist's songs, as
`random.shuffle` guarantees. -/
inductive MusicPlayerManager.Reachable : MusicPlayerManager → Prop where
  | init : MusicPlayerManager.Reachable MusicPlayerManager.init
  | set_current_playlist {m : MusicPlayerManager} (pl : Playlist) :
      MusicPlayerManager.Reachable m →
      MusicPlayerManager.Reachable (m.set_current_playlist pl)
  | set_playing {m : MusicPlayerManager} (b : Bool) :
      MusicPlayerManager.Reachable m →
      MusicPlayerManager.Reachable (m.set_playing_state b)
  | advance {m : MusicPlayerManager} :
      MusicPlayerManager.Reachable m →
      MusicPlayerManager.Reachable m.next_song.2
  | retreat {m : MusicPlayerManager} :
      MusicPlayerManager.Reachable m →
      MusicPlayerManager.Reachable m.previous_song.2
  | toggle_repeat {m : MusicPlayerManager} :
      MusicPlayerManager.Reachable m →
      MusicPlayerManager.Reachable m.toggle_repeat_mode.2
  | toggle_shuffle {m : MusicPlayerManager} (shuffled : List Song) :
      MusicPlayerManager.Reachable m →
      (∀ pl, m.current_playlist = some pl → shuffled.Perm pl.songs.items) →
      MusicPlayerManager.Reachable (m.toggle_shuffle_mode shuffled).2
  | mute {m : MusicPlayerManager} :
      MusicPlayerManager.Reachable m →
      MusicPlayerManager.Reachable m.mute
  | unmute {m : MusicPlayerManager} :
      MusicPlayerManager.Reachable m →
      MusicPlayerManager.Reachable m.unmute
  | set_volume {m m2 : MusicPlayerManager} (v : Rat) :
      MusicPlayerManager.Reachable m →
      m.set_volume v = .ok m2 →
      MusicPlayerManager.Reachable m2
  | reset {m : MusicPlayerManager} :
      MusicPlayerManager.Reachable m →
      MusicPlayerManager.Reachable m.reset_state

/-! Helper lemmas relating the take/drop forms produced by the embedding to
`List.insertIdx` / `List.eraseIdx`, and characterizations of the list-layer
operations at in-range positions. -/

theorem take_cons_drop_eq_insertIdx {α : Type} :
    ∀ (p : Nat) (l : List α) (x : α), p ≤ l.length →
      l.take p ++ x :: l.drop p = l.insertIdx p x
  | 0, l, x, _ => by simp
  | p + 1, [], x, h => by simp at h
  | p + 1, a :: t, x, h => by
    simpa using take_cons_drop_eq_insertIdx p t x (by simpa using h)

theorem getElem_insertIdx_ge {α : Type} :
    ∀ (p : Nat) (l : List α) (x : α) (k : Nat) (hpk : p ≤ k)
      (hk : k < l.length) (hk2 : k + 1 < (l.insertIdx p x).length),
      (l.insertIdx p x)[k + 1] = l[k]
  | 0, l, x, k, _, hk, hk2 => by simp
  | p + 1, [], x, k, hpk, hk, hk2 => by simp at hk
  | p + 1, a :: t, x, k + 1, hpk, hk, hk2 => by
    have := getElem_insertIdx_ge p t x k (by omega) (by simpa using hk)
      (by simpa using hk2)
    simpa using this

theorem DoublyLinkedList.insert_at_end_items {α : Type}
    (d : DoublyLinkedList α) (x : α) :
    (d.insert_at_end x).items = d.items ++ [x] := by
  unfold DoublyLinkedList.insert_at_end
  split <;> simp_all

theorem DoublyLinkedList.insert_at_length {α : Type} (d : DoublyLinkedList α)
    (x : α) :
    d.insert_at_position x (d.items.length : Int) = .ok (d.insert_at_end x) := by
  unfold DoublyLinkedList.insert_at_position
  have h1 : ¬((d.items.length : Int) < 0 ∨
      (d.items.length : Int) < (d.items.length : Int)) := by omega
  rw [if_neg h1]
  by_cases h : d.items.length = 0
  · have hnil : d.items = [] := List.length_eq_zero.mp h
    rw [h]
    simp [DoublyLinkedList.insert_at_end, DoublyLinkedList.insert_at_beginning,
      hnil]
  · have h2 : ¬((d.items.length : Int) = 0) := by omega
    rw [if_neg h2, if_pos rfl]

theorem DoublyLinkedList.insert_at_position_ok {α : Type}
    (d : DoublyLinkedList α) (x : α) (p : Nat) (hp : p ≤ d.items.length)
    (hv : ∀ i, d.cur = some i → i < d.items.length) :
    d.insert_at_position x (p : Int) =
      .ok ⟨d.items.insertIdx p x,
           if d.items.isEmpty then some 0
           else d.cur.map (fun i => if i < p then i else i + 1)⟩ := by
  unfold DoublyLinkedList.insert_at_position
  have h1 : ¬((p : Int) < 0 ∨ (d.items.length : Int) < (p : Int)) := by omega
  rw [if_neg h1]
  by_cases h0 : p = 0
  · subst h0
    have hz : ((0 : Nat) : Int) = 0 := by simp
    rw [if_pos hz]
    rcases h : d.items with _ | ⟨a, t⟩
    · simp [DoublyLinkedList.insert_at_beginning, h]
    · rcases hc : d.cur with _ | i <;>
        simp [DoublyLinkedList.insert_at_beginning, h, hc]
  · have h2 : ¬((p : Int) = 0) := by omega
    rw [if_neg h2]
    by_cases h3 : p = d.items.length
    · subst h3
      rw [if_pos rfl]
      have h6 : d.items ≠ [] := by
        intro hnil; rw [hnil] at h0; simp at h0
      have h7 : d.items.isEmpty = false := by
        simpa [List.isEmpty_iff] using h6
      unfold DoublyLinkedList.insert_at_end
      rcases hc : d.cur with _ | i
      · simp [h7, hc]
      · have hi : i < d.items.length := hv i hc
        simp [h7, hc, Nat.lt_irrefl, hi]
    · have h4 : ¬((p : Int) = (d.items.length : Int)) := by omega
      rw [if_neg h4]
      have h6 : d.items ≠ [] := by
        intro hnil
        rw [hnil] at hp
        simp at hp
        omega
      have h7 : d.items.isEmpty = false := by
        simpa [List.isEmpty_iff] using h6
      have h5 : (p : Int).toNat = p := by simp
      rw [h7]
      simp only [Bool.false_eq_true, if_false, h5]
      rw [take_cons_drop_eq_insertIdx p d.items x hp]

theorem DoublyLinkedList.delete_at_position_ok {α : Type}
    (d : DoublyLinkedList α) (p : Nat) (hp : p < d.items.length) :
    d.delete_at_position (p : Int) =
      .ok (d.items[p],
           ⟨d.items.eraseIdx p,
            DoublyLinkedList.delete_cur_update d.cur p d.items.length⟩) := by
  unfold DoublyLinkedList.delete_at_position
  have h6 : d.items ≠ [] := by
    intro hnil; rw [hnil] at hp; simp at hp
  have h0 : d.items.isEmpty = false := by
    simpa [List.isEmpty_iff] using h6
  have h1 : ¬((p : Int) < 0 ∨ (d.items.length : Int) ≤ (p : Int)) := by omega
  rw [h0]
  simp only [Bool.false_eq_true, if_false]
  rw [dif_neg h1]
  have h5 : (p : Int).toNat = p := by simp
  rw [List.eraseIdx_eq_take_drop_succ]
  simp [h5]

/-- The insertion process of the round-trip claim: starting at index `i`,
perform `insert_at(x, i)`, `insert_at(x', i+1)`, … for the given tracks,
propagating any list-layer error. -/
def build_inserts {α : Type} (d : DoublyLinkedList α) (i : Nat) :
    List α → Except PyErr (DoublyLinkedList α)
  | [] => .ok d
  | x :: rest =>
    match d.insert_at_position x (i : Int) with
    | .error e => .error e
    | .ok d1 => build_inserts d1 (i + 1) rest

theorem build_inserts_ok {α : Type} :
    ∀ (xs : List α) (d : DoublyLinkedList α),
      ∃ d2, build_inserts d d.items.length xs = .ok d2 ∧
        d2.items = d.items ++ xs
  | [], d => ⟨d, rfl, by simp⟩
  | x :: rest, d => by
    obtain ⟨d2, h2, h3⟩ := build_inserts_ok rest (d.insert_at_end x)
    have hlen : (d.insert_at_end x).items.length = d.items.length + 1 := by
      rw [DoublyLinkedList.insert_at_end_items]; simp
    refine ⟨d2, ?_, ?_⟩
    · unfold build_inserts
      rw [DoublyLinkedList.insert_at_length]
      rw [hlen] at h2
      exact h2
    · rw [h3, DoublyLinkedList.insert_at_end_items]
      simp

/-- C5: inserting `x_i` at position `i` for `i = 0 … N-1` into an initially
empty list and reading `to_sequence` gives back exactly `[x_0, …, x_{N-1}]`;
`insert_at` fails with `ValueError` exactly outside `[0, size]`, position
`size` appends, and position `0` prepends. -/
theorem C5_insert_round_trip {α : Type} (xs : List α)
    (d : DoublyLinkedList α) (x : α) (pos : Int) :
    (∃ d2, build_inserts (DoublyLinkedList.empty (α := α)) 0 xs = .ok d2 ∧
       d2.to_list = xs) ∧
    (d.insert_at_position x pos = .error .valueError ↔
       pos < 0 ∨ (d.size : Int) < pos) ∧
    (∃ d3, d.insert_at_position x (d.size : Int) = .ok d3 ∧
       d3.to_list = d.to_list ++ [x]) ∧
    (∃ d4, d.insert_at_position x 0 = .ok d4 ∧
       d4.to_list = x :: d.to_list) := by
  refine ⟨?_, ?_, ?_, ?_⟩
  · obtain ⟨d2, h2, h3⟩ := build_inserts_ok xs (DoublyLinkedList.empty (α := α))
    exact ⟨d2, h2, by simpa [DoublyLinkedList.to_list,
      DoublyLinkedList.empty] using h3⟩
  · unfold DoublyLinkedList.insert_at_position
    constructor
    · intro h
      by_contra hout
      rw [if_neg (by simpa [DoublyLinkedList.size] using hout)] at h
      split at h
      · exact Except.noConfusion h
      · split at h <;> exact Except.noConfusion h
    · intro h
      rw [if_pos (by simpa [DoublyLinkedList.size] using h)]
  · refine ⟨d.insert_at_end x, ?_, ?_⟩
    · simpa [DoublyLinkedList.size] using d.insert_at_length x
    · rw [DoublyLinkedList.to_list, DoublyLinkedList.to_list,
        DoublyLinkedList.insert_at_end_items]
  · unfold DoublyLinkedList.insert_at_position
    rw [if_neg (by omega), if_pos rfl]
    refine ⟨d.insert_at_beginning x, rfl, ?_⟩
    unfold DoublyLinkedList.insert_at_beginning
    rcases h : d.items with _ | ⟨a, t⟩ <;>
      simp [DoublyLinkedList.to_list, h]

/-- The three-track list of Scenario A: tracks inserted at the end of an
initially empty list, in order. -/
def three_track_list {α : Type} (a b c : α) : DoublyLinkedList α :=
  ((DoublyLinkedList.empty.insert_at_end a).insert_at_end b).insert_at_end c

/-- C6: after inserting `a, b, c` at the end of an empty list the sequence is
`[a, b, c]` and the first inserted track is current; `advance` moves the
cursor one node forward and returns that node's track, twice reaching `c`;
at the tail `advance` reports failure (`None`) and leaves the whole list —
cursor included — unchanged, never wrapping to the head. -/
theorem C6_advance_no_wrap {α : Type} (a b c : α) (d : DoublyLinkedList α)
    (i : Nat) (hc : d.cur = some i) :
    (three_track_list a b c).to_list = [a, b, c] ∧
    (three_track_list a b c).get_current = some a ∧
    (three_track_list a b c).next =
      (some b, ⟨[a, b, c], some 1⟩) ∧
    (⟨[a, b, c], some 1⟩ : DoublyLinkedList α).next =
      (some c, ⟨[a, b, c], some 2⟩) ∧
    (⟨[a, b, c], some 2⟩ : DoublyLinkedList α).next =
      (none, ⟨[a, b, c], some 2⟩) ∧
    (⟨[a, b, c], some 2⟩ : DoublyLinkedList α).get_current = some c ∧
    (i + 1 < d.items.length →
       d.next = (d.items[i + 1]?, ⟨d.items, some (i + 1)⟩)) ∧
    (¬(i + 1 < d.items.length) → d.next = (none, d)) := by
  refine ⟨rfl, rfl, ?_, ?_, ?_, rfl, ?_, ?_⟩
  · simp [three_track_list, DoublyLinkedList.empty,
      DoublyLinkedList.insert_at_end, DoublyLinkedList.next]
  · simp [DoublyLinkedList.next]
  · simp [DoublyLinkedList.next]
  · intro h
    unfold DoublyLinkedList.next
    rw [hc]
    simp only [h, dif_pos]
    rw [List.getElem?_eq_getElem h]
  · intro h
    unfold DoublyLinkedList.next
    rw [hc]
    simp only [h, dif_neg, not_false_iff]

/-- Witness for C6 at tracks `0, 1, 2`: the scenario facts and both `advance`
behaviours at concrete cursors. -/
theorem C6_advance_no_wrap_witness :
    (three_track_list 0 1 2).to_list = [0, 1, 2] ∧
    (⟨[0, 1, 2], some 0⟩ : DoublyLinkedList Nat).next =
      (([0, 1, 2] : List Nat)[0 + 1]?, ⟨[0, 1, 2], some (0 + 1)⟩) ∧
    (⟨[0, 1, 2], some 2⟩ : DoublyLinkedList Nat).next =
      (none, ⟨[0, 1, 2], some 2⟩) :=
  ⟨(C6_advance_no_wrap 0 1 2 ⟨[0, 1, 2], some 0⟩ 0 rfl).1,
   (C6_advance_no_wrap 0 1 2 ⟨[0, 1, 2], some 0⟩ 0 rfl).2.2.2.2.2.2.1
     (by decide),
   (C6_advance_no_wrap 0 1 2 ⟨[0, 1, 2], some 2⟩ 2 rfl).2.2.2.2.2.2.2
     (by decide)⟩

/-- C3: on a non-empty list with `p` in `[0, size-1]`, `delete_at(p)` returns
the removed track; the current marker transfers to the deleted node's
successor when one exists, else to its predecessor, else becomes absent, and
a non-deleted current node keeps its track; an out-of-range position fails
with `ValueError` and an empty list with `IndexError` — two distinguishable
errors, each returned instead of any mutated state. -/
theorem C3_delete_at_position {α : Type} (d d0 : DoublyLinkedList α)
    (p : Nat) (q q0 : Int) (hp : p < d.items.length)
    (hq : q < 0 ∨ (d.items.length : Int) ≤ q) (h0 : d0.items = []) :
    (∃ d2, d.delete_at_position (p : Int) = .ok (d.items[p], d2) ∧
       d2.to_list = d.items.eraseIdx p ∧
       (d.cur = some p → p + 1 < d.items.length →
          d2.get_current = d.items[p + 1]?) ∧
       (d.cur = some p → p + 1 = d.items.length → 0 < p →
          d2.get_current = d.items[p - 1]?) ∧
       (d.cur = some p → d.items.length = 1 → d2.get_current = none) ∧
       (∀ c, d.cur = some c → c ≠ p → d2.get_current = d.get_current)) ∧
    d.delete_at_position q = .error .valueError ∧
    d0.delete_at_position q0 = .error .indexError := by
  refine ⟨⟨_, d.delete_at_position_ok p hp, rfl, ?_, ?_, ?_, ?_⟩, ?_, ?_⟩
  · intro h1 h2
    have hcu : DoublyLinkedList.delete_cur_update d.cur p d.items.length
        = some p := by
      simp [DoublyLinkedList.delete_cur_update, h1, h2]
    simp only [DoublyLinkedList.get_current, hcu, Option.some_bind]
    exact List.getElem?_eraseIdx_of_ge _ _ _ (Nat.le_refl p)
  · intro h1 h2 h3
    have h4 : ¬(p + 1 < d.items.length) := by omega
    have hcu : DoublyLinkedList.delete_cur_update d.cur p d.items.length
        = some (p - 1) := by
      simp [DoublyLinkedList.delete_cur_update, h1, h4, h3]
    simp only [DoublyLinkedList.get_current, hcu, Option.some_bind]
    exact List.getElem?_eraseIdx_of_lt _ _ _ (by omega)
  · intro h1 h2
    have h3 : p = 0 := by omega
    subst h3
    have h4 : ¬(0 + 1 < d.items.length) := by omega
    have hcu : DoublyLinkedList.delete_cur_update d.cur 0 d.items.length
        = none := by
      simp [DoublyLinkedList.delete_cur_update, h1, h4]
    simp [DoublyLinkedList.get_current, hcu]
  · intro c h1 h2
    by_cases h3 : c < p
    · have hcu : DoublyLinkedList.delete_cur_update d.cur p d.items.length
          = some c := by
        simp [DoublyLinkedList.delete_cur_update, h1, h2, h3]
      simp only [DoublyLinkedList.get_current]
      rw [hcu, h1]
      simp only [Option.some_bind]
      exact List.getElem?_eraseIdx_of_lt _ _ _ h3
    · have hcu : DoublyLinkedList.delete_cur_update d.cur p d.items.length
          = some (c - 1) := by
        simp [DoublyLinkedList.delete_cur_update, h1, h2, h3]
      simp only [DoublyLinkedList.get_current]
      rw [hcu, h1]
      simp only [Option.some_bind]
      have h5 : (d.items.eraseIdx p)[c - 1]? = d.items[c - 1 + 1]? :=
        List.getElem?_eraseIdx_of_ge _ _ _ (by omega)
      have h6 : c - 1 + 1 = c := by omega
      rw [h5, h6]
  · unfold DoublyLinkedList.delete_at_position
    have h6 : d.items ≠ [] := by
      intro hnil; rw [hnil] at hp; simp at hp
    have h7 : d.items.isEmpty = false := by
      simpa [List.isEmpty_iff] using h6
    rw [h7]
    simp only [Bool.false_eq_true, if_false]
    rw [dif_pos hq]
  · unfold DoublyLinkedList.delete_at_position
    have h7 : d0.items.isEmpty = true := by simp [h0]
    rw [h7]
    simp

/-- Witness for C3: on `[10, 20, 30]` with current `20` (Scenario B),
`delete_at(1)` returns `20`, leaves `[10, 30]`, and the current marker moves
to the successor `30`; position `5` gives `ValueError` and the empty list
gives `IndexError`. -/
theorem C3_delete_at_position_witness :
    ((⟨[10, 20, 30], some 1⟩ : DoublyLinkedList Nat).delete_at_position 1 =
       .ok (20, ⟨[10, 30], some 1⟩) ∧
     (⟨[10, 30], some 1⟩ : DoublyLinkedList Nat).get_current = some 30) ∧
    (⟨[10, 20, 30], some 1⟩ : DoublyLinkedList Nat).delete_at_position 5 =
      .error .valueError ∧
    (DoublyLinkedList.empty (α := Nat)).delete_at_position 0 =
      .error .indexError := by
  have h := C3_delete_at_position (⟨[10, 20, 30], some 1⟩ : DoublyLinkedList Nat)
    DoublyLinkedList.empty 1 5 0 (by decide) (by decide) rfl
  exact ⟨⟨by decide, by decide⟩, h.2.1, h.2.2⟩

theorem getElem?_insertIdx_lt {α : Type} (p k : Nat) (l : List α) (x : α)
    (hk : k < p) (hp : p ≤ l.length) :
    (l.insertIdx p x)[k]? = l[k]? := by
  have hk2 : k < l.length := Nat.lt_of_lt_of_le hk hp
  have hk3 : k < (l.insertIdx p x).length := by
    rw [List.length_insertIdx p l hp]; omega
  rw [List.getElem?_eq_getElem hk3, List.getElem?_eq_getElem hk2]
  exact congrArg some (List.getElem_insertIdx_of_lt l x p k hk hk2 hk3)

theorem getElem?_insertIdx_ge {α : Type} (p k : Nat) (l : List α) (x : α)
    (hpk : p ≤ k) (hk : k < l.length) :
    (l.insertIdx p x)[k + 1]? = l[k]? := by
  have hp : p ≤ l.length := le_trans hpk (le_of_lt hk)
  have hk3 : k + 1 < (l.insertIdx p x).length := by
    rw [List.length_insertIdx p l hp]; omega
  rw [List.getElem?_eq_getElem hk3, List.getElem?_eq_getElem hk]
  exact congrArg some (getElem_insertIdx_ge p l x k hpk hk hk3)

/-- Counterexample to C2 as stated: on the list `[0, 1]` with the current
node at position `0`, `move(0, 1)` succeeds but `get_current` changes from
track `0` to track `1` — moving the current node itself loses the current
marker. -/
theorem C2_move_current_counterexample :
    (⟨[0, 1], some 0⟩ : DoublyLinkedList Nat).move_to_position 0 1 =
      .ok ⟨[0, 1], some 1⟩ ∧
    (⟨[0, 1], some 1⟩ : DoublyLinkedList Nat).get_current ≠
      (⟨[0, 1], some 0⟩ : DoublyLinkedList Nat).get_current := by
  exact ⟨by decide, by decide⟩

/-- C2 (amended): `move(from, to)` preserves `get_current` for every pair of
valid positions whenever the moved node is not the current node.  (When the
moved node is the current node the marker migrates to a neighbour, as the
counterexample shows.) -/
theorem C2_move_preserves_noncurrent {α : Type} (d : DoublyLinkedList α)
    (c fp tp : Nat) (hc : d.cur = some c) (hcl : c < d.items.length)
    (hf : fp < d.items.length) (ht : tp < d.items.length) (hne : fp ≠ c) :
    ∃ d2, d.move_to_position (fp : Int) (tp : Int) = .ok d2 ∧
      d2.get_current = d.get_current := by
  have hlen2 : 2 ≤ d.items.length := by omega
  have h6 : d.items ≠ [] := by
    intro hnil; rw [hnil] at hf; simp at hf
  have h7 : d.items.isEmpty = false := by
    simpa [List.isEmpty_iff] using h6
  unfold DoublyLinkedList.move_to_position
  rw [h7]
  simp only [Bool.false_eq_true, if_false]
  rw [if_neg (by omega : ¬((fp : Int) < 0 ∨
    (d.items.length : Int) ≤ (fp : Int) ∨ (tp : Int) < 0 ∨
    (d.items.length : Int) ≤ (tp : Int)))]
  by_cases heq : fp = tp
  · subst heq
    rw [if_pos rfl]
    exact ⟨d, rfl, rfl⟩
  · rw [if_neg (by omega : ¬((fp : Int) = (tp : Int)))]
    rw [show (do
        let r ← d.delete_at_position (fp : Int)
        let to2 := if (fp : Int) < (tp : Int) then (tp : Int) - 1 else (tp : Int)
        r.2.insert_at_position r.1 to2 :
          Except PyErr (DoublyLinkedList α)) =
      (d.delete_at_position (fp : Int)).bind (fun r =>
        r.2.insert_at_position r.1
          (if (fp : Int) < (tp : Int) then (tp : Int) - 1 else (tp : Int)))
      from rfl]
    rw [d.delete_at_position_ok fp hf]
    simp only [Except.bind]
    set c1 : Nat := if c < fp then c else c - 1 with hc1
    have hred : DoublyLinkedList.delete_cur_update (some c) fp d.items.length
        = if c = fp then
            (if fp + 1 < d.items.length then some fp
             else if 0 < fp then some (fp - 1) else none)
          else if c < fp then some c else some (c - 1) := rfl
    have hcur1 : DoublyLinkedList.delete_cur_update (some c) fp d.items.length
        = some c1 := by
      rw [hred, if_neg (by omega : ¬(c = fp))]
      by_cases h8 : c < fp
      · rw [if_pos h8, hc1, if_pos h8]
      · rw [if_neg h8, hc1, if_neg h8]
    set t2 : Nat := if fp < tp then tp - 1 else tp with ht2
    have hto2 : (if (fp : Int) < (tp : Int) then (tp : Int) - 1 else (tp : Int))
        = (t2 : Int) := by
      by_cases h8 : fp < tp
      · rw [if_pos (by omega : (fp : Int) < (tp : Int)), ht2, if_pos h8]
        omega
      · rw [if_neg (by omega : ¬((fp : Int) < (tp : Int))), ht2, if_neg h8]
    rw [hto2]
    have hlen1 : (d.items.eraseIdx fp).length = d.items.length - 1 :=
      List.length_eraseIdx_of_lt hf
    have hc1lt : c1 < d.items.length - 1 := by
      rw [hc1]
      by_cases h8 : c < fp
      · rw [if_pos h8]; omega
      · rw [if_neg h8]; omega
    have ht2le : t2 ≤ (d.items.eraseIdx fp).length := by
      rw [hlen1, ht2]
      by_cases h8 : fp < tp
      · rw [if_pos h8]; omega
      · rw [if_neg h8]; omega
    have hv1 : ∀ i,
        (⟨d.items.eraseIdx fp,
          DoublyLinkedList.delete_cur_update d.cur fp d.items.length⟩ :
            DoublyLinkedList α).cur = some i →
        i < (⟨d.items.eraseIdx fp,
          DoublyLinkedList.delete_cur_update d.cur fp d.items.length⟩ :
            DoublyLinkedList α).items.length := by
      intro i hi
      simp only [hc, hcur1, Option.some_inj] at hi
      subst hi
      simpa [hlen1] using hc1lt
    rw [DoublyLinkedList.insert_at_position_ok _ _ t2 ht2le hv1]
    have hne1 : (d.items.eraseIdx fp).isEmpty = false := by
      have : (d.items.eraseIdx fp) ≠ [] := by
        intro hnil
        have := congrArg List.length hnil
        rw [hlen1] at this
        simp at this
        omega
      simpa [List.isEmpty_iff] using this
    refine ⟨_, rfl, ?_⟩
    simp only [DoublyLinkedList.get_current, hne1, Bool.false_eq_true,
      if_false, hcur1, Option.map_some', Option.some_bind, hc]
    have herase : (d.items.eraseIdx fp)[c1]? = d.items[c]? := by
      by_cases h8 : c < fp
      · have h10 : c1 = c := by rw [hc1, if_pos h8]
        rw [h10]
        exact List.getElem?_eraseIdx_of_lt _ _ _ h8
      · have h10 : c1 = c - 1 := by rw [hc1, if_neg h8]
        rw [h10, List.getElem?_eraseIdx_of_ge _ _ _ (by omega),
          show c - 1 + 1 = c from by omega]
    by_cases h9 : c1 < t2
    · rw [if_pos h9, getElem?_insertIdx_lt t2 c1 _ _ h9 ht2le]
      exact herase
    · rw [if_neg h9,
        getElem?_insertIdx_ge t2 c1 _ _ (by omega) (by rw [hlen1]; omega)]
      exact herase

/-- Witness for the amended C2 at `[0, 1, 2]` with current node `2`: moving
position `0` to position `1` keeps `get_current` at track `2`. -/
theorem C2_move_preserves_noncurrent_witness :
    ∃ d2, (⟨[0, 1, 2], some 2⟩ : DoublyLinkedList Nat).move_to_position 0 1 =
        .ok d2 ∧
      d2.get_current =
        (⟨[0, 1, 2], some 2⟩ : DoublyLinkedList Nat).get_current :=
  C2_move_preserves_noncurrent ⟨[0, 1, 2], some 2⟩ 2 0 1 rfl (by decide)
    (by decide) (by decide) (by decide)

/-- The four tracks of Scenario C. -/
def songA : Song := ⟨"A", "Track A", 0⟩

/-- Track B of Scenario C. -/
def songB : Song := ⟨"B", "Track B", 0⟩

/-- Track C of Scenario C. -/
def songC : Song := ⟨"C", "Track C", 0⟩

/-- Track D of Scenario C. -/
def songD : Song := ⟨"D", "Track D", 0⟩

/-- The playlist of Scenario C: tracks `[A, B, C, D]`, current position `2`
(track C), list current pointer in sync. -/
def scenario_playlist : Playlist :=
  ⟨"demo", ⟨[songA, songB, songC, songD], some 2⟩, 2, 0, 4⟩

/-- C1 (evaluation at the claimed input): `move_track(0, 3)` on
`[A, B, C, D]` with `current_position = 2` reports success, decrements
`current_position` to `1`, and position `1` holds track C — but the
resulting sequence is `[B, C, A, D]`, not the `[B, C, D, A]` the claim
states: the list layer's `to_pos -= 1` adjustment makes the moved track land
one short of its target. -/
theorem C1_move_track_scenario :
    (scenario_playlist.move_song 0 3).1 = true ∧
    (scenario_playlist.move_song 0 3).2.get_songs_list =
      [songB, songC, songA, songD] ∧
    (scenario_playlist.move_song 0 3).2.get_songs_list ≠
      [songB, songC, songD, songA] ∧
    (scenario_playlist.move_song 0 3).2.current_position = 1 ∧
    (scenario_playlist.move_song 0 3).2.get_current_song = some songC := by
  exact ⟨by decide, by decide, by decide, by decide, by decide⟩

/-- C8: for inputs the list layer rejects, the playlist mutators return a
`False` flag with the playlist unchanged instead of raising: `add_track` at a
position outside `[0, size]`, `remove_track` of an id no song carries, and
`move_track` with either position outside `[0, size-1]`.  (Being total
functions into `Bool × Playlist`, the embedded mutators can raise nothing.) -/
theorem C8_mutations_fail_closed (p : Playlist) :
    (∀ (s : Song) (pos : Int), pos < 0 ∨ (p.songs.size : Int) < pos →
       p.add_song s (some pos) = (false, p)) ∧
    (∀ song_id : String, (∀ t ∈ p.songs.items, t.id ≠ song_id) →
       p.remove_song song_id = (false, p)) ∧
    (∀ fp tp : Int,
       fp < 0 ∨ (p.songs.size : Int) ≤ fp ∨ tp < 0 ∨ (p.songs.size : Int) ≤ tp →
       p.move_song fp tp = (false, p)) := by
  refine ⟨?_, ?_, ?_⟩
  · intro s pos h
    dsimp only [Playlist.add_song]
    rw [if_pos h]
  · intro song_id h
    unfold Playlist.remove_song
    by_cases hsid : song_id = ""
    · rw [if_pos hsid]
    · rw [if_neg hsid]
      have hnone : p.songs.items.findIdx? (fun s => s.id == song_id) = none := by
        rw [List.findIdx?_eq_none_iff]
        intro t ht
        simpa using h t ht
      rw [hnone]
  · intro fp tp h
    unfold Playlist.move_song
    by_cases he : p.songs.is_empty
    · rw [if_pos he]
    · rw [if_neg he, if_pos h]

/-- Witness for C8 on the Scenario C playlist: adding at position `9`,
removing the absent id `"Z"`, and moving from position `-1` each yield
`False` and leave the playlist untouched. -/
theorem C8_mutations_fail_closed_witness :
    scenario_playlist.add_song songA (some 9) = (false, scenario_playlist) ∧
    scenario_playlist.remove_song "Z" = (false, scenario_playlist) ∧
    scenario_playlist.move_song (-1) 0 = (false, scenario_playlist) :=
  ⟨(C8_mutations_fail_closed scenario_playlist).1 songA 9 (by decide),
   (C8_mutations_fail_closed scenario_playlist).2.1 "Z" (by
     intro t ht
     simp only [scenario_playlist, songA, songB, songC, songD,
       List.mem_cons, List.not_mem_nil, or_false] at ht
     rcases ht with h | h | h | h <;> subst h <;> decide),
   (C8_mutations_fail_closed scenario_playlist).2.2 (-1) 0 (by decide)⟩

/-- C9: `mute()` drives the readable volume to `0.0` while remembering the
previous volume; `unmute()` right after `mute()` (no intervening
`set_volume`) restores exactly the pre-mute volume; and `unmute()` before any
volume was ever remembered falls back to the default `70`. -/
theorem C9_mute_unmute_round_trip (m : MusicPlayerManager) :
    m.mute.current_volume = 0 ∧
    m.mute.unmute.current_volume = m.current_volume ∧
    (m.volume_before_mute = none → m.unmute.current_volume = 70) := by
  refine ⟨rfl, rfl, ?_⟩
  intro h
  unfold MusicPlayerManager.unmute
  rw [h]

/-- Witness for C9 at the initial state (volume `70`, nothing remembered). -/
theorem C9_mute_unmute_round_trip_witness :
    MusicPlayerManager.init.mute.current_volume = 0 ∧
    MusicPlayerManager.init.mute.unmute.current_volume =
      MusicPlayerManager.init.current_volume ∧
    MusicPlayerManager.init.unmute.current_volume = 70 :=
  ⟨(C9_mute_unmute_round_trip MusicPlayerManager.init).1,
   (C9_mute_unmute_round_trip MusicPlayerManager.init).2.1,
   (C9_mute_unmute_round_trip MusicPlayerManager.init).2.2 rfl⟩

/-- C10: when the active playlist is absent — or present but empty, since
`Playlist.__bool__` makes an empty playlist falsy — `advance_track` and
`retreat_track` report failure and leave the session untouched, whatever the
repeat mode (including `"one"` and `"all"`). -/
theorem C10_navigation_fails_without_songs (m : MusicPlayerManager)
    (h : m.current_playlist = none ∨
         ∃ pl, m.current_playlist = some pl ∧ pl.songs.items = []) :
    m.next_song = (false, m) ∧ m.previous_song = (false, m) := by
  rcases h with h | ⟨pl, h, hemp⟩
  · constructor <;>
      simp [MusicPlayerManager.next_song, MusicPlayerManager.previous_song, h]
  · have he : pl.songs.is_empty = true := by
      simp [DoublyLinkedList.is_empty, hemp]
    constructor <;>
      simp [MusicPlayerManager.next_song, MusicPlayerManager.previous_song,
        h, he]

/-- Witness for C10: a session holding an empty playlist with repeat `"all"`
still fails to advance or retreat. -/
theorem C10_navigation_fails_without_songs_witness :
    (⟨some (Playlist.init "e"), false, false, 70, .all, false, 0, none⟩ :
      MusicPlayerManager).next_song =
      (false, ⟨some (Playlist.init "e"), false, false, 70, .all, false, 0,
        none⟩) ∧
    (⟨some (Playlist.init "e"), false, false, 70, .all, false, 0, none⟩ :
      MusicPlayerManager).previous_song =
      (false, ⟨some (Playlist.init "e"), false, false, 70, .all, false, 0,
        none⟩) :=
  C10_navigation_fails_without_songs _ (Or.inr ⟨Playlist.init "e", rfl, rfl⟩)

/-- C4: with a non-empty active playlist, `advance_track` follows the repeat
policy.  Repeat `"one"`: success, same session except the position in seconds
resets to `0` (so the same track stays current).  Repeat `"off"` with the
cursor on the last track: failure, and both playback flags drop — the session
is `Stopped`.  Repeat `"all"` with the cursor on the last track: success, and
the playlist's `current_position` (and list cursor) wrap to `0`. -/
theorem C4_advance_repeat_policy (m : MusicPlayerManager) (pl : Playlist)
    (hpl : m.current_playlist = some pl) (hne : pl.songs.items ≠ []) :
    (m.repeat_mode = .one →
       m.next_song = (true, { m with current_position_seconds := 0 })) ∧
    (m.repeat_mode = .off →
       pl.songs.cur = some (pl.songs.items.length - 1) →
       m.next_song.1 = false ∧
       m.next_song.2.is_playing = false ∧
       m.next_song.2.is_paused = false ∧
       m.next_song.2.status = .stopped) ∧
    (m.repeat_mode = .all →
       pl.songs.cur = some (pl.songs.items.length - 1) →
       0 < pl.song_count →
       m.next_song.1 = true ∧
       ∃ pl2, m.next_song.2.current_playlist = some pl2 ∧
         pl2.current_position = 0 ∧ pl2.songs.cur = some 0) := by
  have hlen : 0 < pl.songs.items.length := List.length_pos.mpr hne
  have he : pl.songs.is_empty = false := by
    simpa [DoublyLinkedList.is_empty, List.isEmpty_iff] using hne
  have hcond : ¬(pl.songs.items.length - 1 + 1 < pl.songs.items.length) := by
    omega
  refine ⟨?_, ?_, ?_⟩
  · intro h1
    simp [MusicPlayerManager.next_song, hpl, he, h1]
  · intro h1 hlast
    have hnext : pl.songs.next = (none, pl.songs) := by
      unfold DoublyLinkedList.next
      rw [hlast]
      simp only [hcond, dif_neg, not_false_iff]
    have hplnext : pl.next_song = (none, pl) := by
      unfold Playlist.next_song
      rw [he]
      simp [hnext]
    simp [MusicPlayerManager.next_song, hpl, he, h1, hplnext,
      MusicPlayerManager.status]
  · intro h1 hlast hcount
    have hnext : pl.songs.next = (none, pl.songs) := by
      unfold DoublyLinkedList.next
      rw [hlast]
      simp only [hcond, dif_neg, not_false_iff]
    have hplnext : pl.next_song = (none, pl) := by
      unfold Playlist.next_song
      rw [he]
      simp [hnext]
    have hset : pl.set_current_position 0 =
        (true, { pl with songs := ⟨pl.songs.items, some 0⟩,
                         current_position := 0 }) := by
      have he2 : pl.songs.items.isEmpty = false := he
      unfold Playlist.set_current_position
      rw [he]
      simp only [Bool.false_eq_true, if_false]
      rw [if_neg (by simp only [DoublyLinkedList.size]; omega :
        ¬((0 : Int) < 0 ∨ ((pl.songs.size : Int) ≤ (0 : Int))))]
      unfold DoublyLinkedList.set_current
      rw [he2]
      simp only [Bool.false_eq_true, if_false]
      rw [dif_neg (by omega : ¬((0 : Int) < 0 ∨
        ((pl.songs.items.length : Int) ≤ (0 : Int))))]
      simp
    simp [MusicPlayerManager.next_song, hpl, he, h1, hplnext, hcount, hset]

/-- A two-track playlist with the cursor on the last track, for exercising
the end-of-playlist behaviour. -/
def last_playlist : Playlist := ⟨"p", ⟨[songA, songB], some 1⟩, 1, 0, 2⟩

/-- Witness for C4 on a session at the last track of a two-track playlist,
once for each repeat mode. -/
theorem C4_advance_repeat_policy_witness :
    ((⟨some last_playlist, true, false, 50, .one, false, 30, none⟩ :
        MusicPlayerManager).next_song =
      (true, ⟨some last_playlist, true, false, 50, .one, false, 0, none⟩)) ∧
    ((⟨some last_playlist, true, false, 50, .off, false, 30, none⟩ :
        MusicPlayerManager).next_song.1 = false ∧
      (⟨some last_playlist, true, false, 50, .off, false, 30, none⟩ :
        MusicPlayerManager).next_song.2.status = .stopped) ∧
    ((⟨some last_playlist, true, false, 50, .all, false, 30, none⟩ :
        MusicPlayerManager).next_song.1 = true ∧
      ∃ pl2, (⟨some last_playlist, true, false, 50, .all, false, 30, none⟩ :
          MusicPlayerManager).next_song.2.current_playlist = some pl2 ∧
        pl2.current_position = 0 ∧ pl2.songs.cur = some 0) := by
  refine ⟨?_, ?_, ?_⟩
  · exact (C4_advance_repeat_policy _ last_playlist rfl (by decide)).1 rfl
  · have h := (C4_advance_repeat_policy
      (⟨some last_playlist, true, false, 50, .off, false, 30, none⟩ :
        MusicPlayerManager) last_playlist rfl (by decide)).2.1 rfl (by decide)
    exact ⟨h.1, h.2.2.2⟩
  · have h := (C4_advance_repeat_policy
      (⟨some last_playlist, true, false, 50, .all, false, 30, none⟩ :
        MusicPlayerManager) last_playlist rfl (by decide)).2.2 rfl (by decide)
      (by decide)
    exact ⟨h.1, h.2⟩

/-- Embeds `advance_track` either leaves both playback flags untouched or clears
both (the stop at the playlist's end). -/
theorem MusicPlayerManager.next_song_flags (m : MusicPlayerManager) :
    (m.next_song.2.is_playing = m.is_playing ∧
     m.next_song.2.is_paused = m.is_paused) ∨
    (m.next_song.2.is_playing = false ∧ m.next_song.2.is_paused = false) := by
  unfold MusicPlayerManager.next_song
  dsimp only
  split
  · left; exact ⟨rfl, rfl⟩
  · split
    · left; exact ⟨rfl, rfl⟩
    · split
      · left; exact ⟨rfl, rfl⟩
      · split
        · left; exact ⟨rfl, rfl⟩
        · split
          · left; exact ⟨rfl, rfl⟩
          · right; exact ⟨rfl, rfl⟩

/-- Embeds `retreat_track` never touches the playback flags. -/
theorem MusicPlayerManager.previous_song_flags (m : MusicPlayerManager) :
    m.previous_song.2.is_playing = m.is_playing ∧
    m.previous_song.2.is_paused = m.is_paused := by
  unfold MusicPlayerManager.previous_song
  dsimp only
  split
  · exact ⟨rfl, rfl⟩
  · split
    · exact ⟨rfl, rfl⟩
    · split
      · exact ⟨rfl, rfl⟩
      · split
        · exact ⟨rfl, rfl⟩
        · split
          · exact ⟨rfl, rfl⟩
          · exact ⟨rfl, rfl⟩

/-- Embeds `toggle_shuffle_mode` never touches the playback flags. -/
theorem MusicPlayerManager.toggle_shuffle_flags (m : MusicPlayerManager)
    (shuffled : List Song) :
    (m.toggle_shuffle_mode shuffled).2.is_playing = m.is_playing ∧
    (m.toggle_shuffle_mode shuffled).2.is_paused = m.is_paused := by
  unfold MusicPlayerManager.toggle_shuffle_mode
  dsimp only
  split
  · split
    · exact ⟨rfl, rfl⟩
    · exact ⟨rfl, rfl⟩
  · exact ⟨rfl, rfl⟩

/-- Embeds `unmute` never touches the playback flags. -/
theorem MusicPlayerManager.unmute_flags (m : MusicPlayerManager) :
    m.unmute.is_playing = m.is_playing ∧
    m.unmute.is_paused = m.is_paused := by
  unfold MusicPlayerManager.unmute
  split
  · exact ⟨rfl, rfl⟩
  · exact ⟨rfl, rfl⟩

/-- Embeds `set_playing_state` re-establishes the exclusion of the two flags. -/
theorem MusicPlayerManager.set_playing_flags (m : MusicPlayerManager)
    (b : Bool) :
    (m.set_playing_state b).is_playing = false ∨
    (m.set_playing_state b).is_paused = false := by
  unfold MusicPlayerManager.set_playing_state
  by_cases hb : b = true
  · subst hb
    rw [if_pos rfl]
    right; rfl
  · have hb2 : b = false := by simpa using hb
    subst hb2
    simp only [Bool.false_eq_true, if_false]
    split
    · split
      · left; rfl
      · left; rfl
    · left; rfl

/-- C7: in every session state reachable from the initial state through the
public operations, `is_playing` and `is_paused` are never both true, and the
status read off the flags is `Stopped` exactly when both are false. -/
theorem C7_playback_flags_invariant (m : MusicPlayerManager)
    (h : MusicPlayerManager.Reachable m) :
    ¬(m.is_playing = true ∧ m.is_paused = true) ∧
    (m.status = .stopped ↔
       (m.is_playing = false ∧ m.is_paused = false)) := by
  have hstatus : ∀ m2 : MusicPlayerManager,
      (m2.status = PlayerStatus.stopped ↔
        (m2.is_playing = false ∧ m2.is_paused = false)) := by
    intro m2
    unfold MusicPlayerManager.status
    by_cases h1 : m2.is_playing <;> by_cases h2 : m2.is_paused <;>
      simp [h1, h2]
  refine ⟨?_, hstatus m⟩
  have hflags : m.is_playing = false ∨ m.is_paused = false := by
    induction h with
    | init => left; rfl
    | set_current_playlist pl hr ih => left; rfl
    | @set_playing m2 b hr ih =>
      exact MusicPlayerManager.set_playing_flags m2 b
    | @advance m2 hr ih =>
      rcases MusicPlayerManager.next_song_flags m2 with ⟨h1, h2⟩ | ⟨h1, h2⟩
      · rw [h1, h2]; exact ih
      · left; exact h1
    | @retreat m2 hr ih =>
      have h2 := MusicPlayerManager.previous_song_flags m2
      rw [h2.1, h2.2]; exact ih
    | toggle_repeat hr ih => exact ih
    | @toggle_shuffle m2 shuffled hr hperm ih =>
      have h2 := MusicPlayerManager.toggle_shuffle_flags m2 shuffled
      rw [h2.1, h2.2]; exact ih
    | mute hr ih => exact ih
    | @unmute m2 hr ih =>
      have h2 := MusicPlayerManager.unmute_flags m2
      rw [h2.1, h2.2]; exact ih
    | set_volume v hr heq ih =>
      unfold MusicPlayerManager.set_volume at heq
      split at heq
      · exact Except.noConfusion heq
      · cases heq
        exact ih
    | reset hr ih => left; rfl
  rintro ⟨h1, h2⟩
  rcases hflags with h3 | h3 <;> simp_all

/-- Witness for C7 at the initial (reachable) state. -/
theorem C7_playback_flags_invariant_witness :
    ¬(MusicPlayerManager.init.is_playing = true ∧
      MusicPlayerManager.init.is_paused = true) ∧
    (MusicPlayerManager.init.status = .stopped ↔
       (MusicPlayerManager.init.is_playing = false ∧
        MusicPlayerManager.init.is_paused = false)) :=
  C7_playback_flags_invariant _ MusicPlayerManager.Reachable.init
